import Mathlib

/-
Verification of the core DROP (data node) classes of the dfms repository.

The Lean definitions below are a shallow embedding of the Python classes in
src/dfms/drop.py and src/dfms/apps/dockerapp.py.  Mutable object state is
modelled as a structure that every method maps to a new value; methods that
can raise return Except (the Python error paths raise before mutating the
fields our theorems talk about, so discarding the state on error is
faithful).  External collaborators (the DataIO backend, the docker client,
threads and locks) are modelled by the values they report back to the DROP
code: for example the number of bytes the backend claims to have persisted
is a parameter of the write step.
-/

namespace Dfms

/-- The DROPStates constants of ddap_protocol used by drop.py. -/
inductive DStatus
  | INITIALIZED
  | WRITING
  | COMPLETED
  | EXPIRED
  | DELETED
  | ERROR
  deriving DecidableEq, Repr

/-- The AppDROPStates constants (execution status of an AppDROP). -/
inductive AppState
  | NOT_RUN
  | RUNNING
  | FINISHED
  | ERROR
  | CANCELLED
  deriving DecidableEq, Repr

/-- Events fired through the LocalEventBroadcaster of a DROP, as far as the
claims need them: status events fired by the status setter, the open event,
and the dropCompleted notifications sent to streaming consumers by
setCompleted (streaming consumers are identified by a number). -/
inductive Ev
  | status (v : DStatus)
  | openEv
  | streamEnd (consumer : Nat)
  deriving DecidableEq, Repr

/-- Errors raised by AbstractDROP methods (each constructor stands for one
of the raise sites in drop.py). -/
inductive Err
  | invalidState
  | badDescriptor
  | notProducer
  | overFinished
  | noDropCompletedMethod
  | alreadyStreamingConsumer
  | alreadyNormalConsumer
  | noStreamingMethods
  deriving DecidableEq, Repr

/-- The mutable state of an AbstractDROP (drop.py, AbstractDROP.init fields)
restricted to what the claims are about.  consumers and streaming consumers
are identified by numbers (Python object identity), producers by their uid
strings (producerFinished compares uids).  deliveries records every
dataWritten call made to a streaming consumer together with the bytes it
received; events records fired events in order. -/
structure Drop where
  status : DStatus
  size : Option Nat
  checksum : Option Nat
  checksumType : Option Nat
  wio : Bool
  expectedSize : Int
  refCount : Int
  rios : List Int
  consumers : List Nat
  streamingConsumers : List Nat
  producers : List String
  finishedProducers : List String
  events : List Ev
  deliveries : List (Nat × List Nat)
  deriving DecidableEq, Repr

/-- A freshly constructed data DROP: the field values AbstractDROP.init
assigns before moving to INITIALIZED (expectedSize defaults to -1). -/
def freshDrop : Drop :=
  { status := DStatus.INITIALIZED
    size := none
    checksum := none
    checksumType := none
    wio := false
    expectedSize := -1
    refCount := 0
    rios := []
    consumers := []
    streamingConsumers := []
    producers := []
    finishedProducers := []
    events := []
    deliveries := [] }

/-- The status property setter (drop.py lines 576-584): if the requested
value equals the current status nothing happens and no event is fired;
otherwise the status is stored and a status event is fired. -/
def statusSet (s : Drop) (v : DStatus) : Drop :=
  if v = s.status then s
  else { s with status := v, events := s.events ++ [Ev.status v] }

/-- One bit step of the reflected CRC-32 used by binascii.crc32, the
fallback checksum algorithm imported at the top of drop.py (crc32c differs
only in the polynomial; no claim depends on which one is loaded). -/
def crcBitStep (c : Nat) : Nat :=
  if c % 2 = 1 then (c / 2) ^^^ 0xEDB88320 else c / 2

/-- Folding one input byte into the CRC accumulator. -/
def crcByteStep (c : Nat) (b : Nat) : Nat :=
  crcBitStep^[8] (c ^^^ (b % 256))

/-- crc32(data, value) of binascii: the running CRC over data continuing
from the previous value. -/
def crc32 (data : List Nat) (value : Nat) : Nat :=
  (data.foldl crcByteStep (value ^^^ 0xFFFFFFFF)) ^^^ 0xFFFFFFFF

/-- AbstractDROP updateChecksum (drop.py lines 409-414): on the first chunk
the accumulator starts at 0 and the checksum type is recorded; the chunk
fed to crc32 is the full argument given to write. -/
def updateChecksum (s : Drop) (chunk : List Nat) : Drop :=
  match s.checksum with
  | none => { s with checksum := some (crc32 chunk 0), checksumType := some 1 }
  | some c => { s with checksum := some (crc32 chunk c) }

/-- AbstractDROP.setCompleted (drop.py lines 764-785): requires the status
to be INITIALIZED or WRITING, closes the writer, moves to COMPLETED through
the status setter, then notifies every streaming consumer via
dropCompleted. -/
def setCompleted (s : Drop) : Except Err Drop :=
  if s.status = DStatus.INITIALIZED ∨ s.status = DStatus.WRITING then
    let s1 := statusSet { s with wio := false } DStatus.COMPLETED
    Except.ok { s1 with
      events := s1.events ++ s1.streamingConsumers.map (fun c => Ev.streamEnd c) }
  else Except.error Err.invalidState

/-- AbstractDROP.write (drop.py lines 328-380).  data is the byte string
given by the caller; nbytes is the count the underlying DataIO reports as
actually persisted.  The method raises unless the status is INITIALIZED or
WRITING, lazily opens the writer, adds nbytes to the size, hands
buffer(data, 0, nbytes) to every streaming consumer, feeds the full data
into the checksum, and finally either moves towards COMPLETED (when
expectedSize is reached) or sets the status to WRITING. -/
def writeStep (s : Drop) (data : List Nat) (nbytes : Nat) : Except Err Drop :=
  if s.status = DStatus.INITIALIZED ∨ s.status = DStatus.WRITING then
    let s1 := { s with wio := true }
    let s2 := { s1 with size := some (s1.size.getD 0 + nbytes) }
    let written := data.take nbytes
    let s3 := { s2 with
      deliveries := s2.deliveries ++ s2.streamingConsumers.map (fun c => (c, written)) }
    let s4 := updateChecksum s3 data
    if s4.expectedSize > 0 then
      if s4.expectedSize - (s4.size.getD 0 : Int) > 0 then
        Except.ok (statusSet s4 DStatus.WRITING)
      else setCompleted s4
    else Except.ok (statusSet s4 DStatus.WRITING)
  else Except.error Err.invalidState

/-- AbstractDROP.producerFinished (drop.py lines 699-724): rejects uids that
are not registered producers; inside the lock it reads the current number of
finished producers, rejects when that number already reached the number of
producers, and adds the uid to the finished set; completion is then
triggered when the pre-add count plus one equals the number of producers. -/
def producerFinished (s : Drop) (uid : String) : Except Err Drop :=
  if uid ∈ s.producers then
    let nFinished := s.finishedProducers.length
    if nFinished ≥ s.producers.length then Except.error Err.overFinished
    else
      let s1 := { s with finishedProducers :=
        if uid ∈ s.finishedProducers then s.finishedProducers
        else s.finishedProducers ++ [uid] }
      if nFinished + 1 = s1.producers.length then setCompleted s1
      else Except.ok s1
  else Except.error Err.notProducer

/-- AbstractDROP.checkStateAndDescriptor (drop.py lines 314-318). -/
def checkStateAndDescriptor (s : Drop) (d : Int) : Option Err :=
  if s.status ≠ DStatus.COMPLETED then some Err.invalidState
  else if d ∈ s.rios then none
  else some Err.badDescriptor

/-- AbstractDROP.open (drop.py lines 260-291): fails unless COMPLETED;
otherwise stores the reader under a fresh random descriptor d (the source
redraws d while it collides, so d can be assumed absent from rios),
increments the reference count and fires the open event. -/
def openStep (s : Drop) (d : Int) : Except Err Drop :=
  if s.status ≠ DStatus.COMPLETED then Except.error Err.invalidState
  else Except.ok { s with
    rios := s.rios ++ [d]
    refCount := s.refCount + 1
    events := s.events ++ [Ev.openEv] }

/-- AbstractDROP.read (drop.py lines 306-312): checks state and descriptor
and reads from the underlying IO, leaving the DROP state unchanged. -/
def readStep (s : Drop) (d : Int) : Except Err Drop :=
  match checkStateAndDescriptor s d with
  | some e => Except.error e
  | none => Except.ok s

/-- AbstractDROP.close (drop.py lines 293-304): checks state and descriptor,
decrements the reference count and removes the descriptor. -/
def closeStep (s : Drop) (d : Int) : Except Err Drop :=
  match checkStateAndDescriptor s d with
  | some e => Except.error e
  | none => Except.ok { s with
    refCount := s.refCount - 1
    rios := s.rios.filter (fun x => x ≠ d) }

/-- AbstractDROP.addConsumer (drop.py lines 617-667) restricted to the
effect on this DROP's own lists.  hasDC says whether the consumer object has
a dropCompleted method.  The raise sites come before any mutation; the
back-reference and the status subscription act on other objects. -/
def addConsumer (s : Drop) (c : Nat) (hasDC : Bool) : Except Err Drop :=
  if ¬ hasDC then Except.error Err.noDropCompletedMethod
  else if c ∈ s.streamingConsumers then Except.error Err.alreadyStreamingConsumer
  else if c ∈ s.consumers then Except.ok s
  else Except.ok { s with consumers := s.consumers ++ [c] }

/-- AbstractDROP.addStreamingConsumer (drop.py lines 735-762), same
conventions as addConsumer; hasBoth says whether the object has both the
dropCompleted and the dataWritten methods. -/
def addStreamingConsumer (s : Drop) (c : Nat) (hasBoth : Bool) : Except Err Drop :=
  if ¬ hasBoth then Except.error Err.noStreamingMethods
  else if c ∈ s.consumers then Except.error Err.alreadyNormalConsumer
  else if c ∈ s.streamingConsumers then Except.ok s
  else Except.ok { s with streamingConsumers := s.streamingConsumers ++ [c] }

/-- AbstractDROP.parent property setter (drop.py lines 595-606), with the
outcome of the addChild call on the new parent made explicit: cur is the
currently stored parent, p the assigned value, hasAddChild whether the new
parent has an addChild method and addChildRaises whether that call raises
(a raise restores the previous parent).  Containers are identified by
numbers.  When a parent is already set the source only logs a warning and
overwrites. -/
def parentSet (cur : Option Nat) (p : Option Nat)
    (hasAddChild : Bool) (addChildRaises : Bool) : Option Nat :=
  match p with
  | none => cur
  | some q => if hasAddChild && addChildRaises then cur else some q

/-- The public data-node operations of claim C5, with the external inputs
(the persisted byte count of a write, the descriptor drawn by open) as
arguments. -/
inductive DropOp
  | write (data : List Nat) (nbytes : Nat)
  | setCompleted
  | openOp (d : Int)
  | readOp (d : Int)
  | closeOp (d : Int)
  | producerFinished (uid : String)
  deriving DecidableEq, Repr

/-- Dispatch one public operation. -/
def dropStep (s : Drop) : DropOp → Except Err Drop
  | DropOp.write data nbytes => writeStep s data nbytes
  | DropOp.setCompleted => setCompleted s
  | DropOp.openOp d => openStep s d
  | DropOp.readOp d => readStep s d
  | DropOp.closeOp d => closeStep s d
  | DropOp.producerFinished uid => producerFinished s uid

/-- Run a sequence of public operations; the whole run succeeds only when
every operation does. -/
def runOps (s : Drop) : List DropOp → Except Err Drop
  | [] => Except.ok s
  | op :: rest =>
    match dropStep s op with
    | Except.error e => Except.error e
    | Except.ok s1 => runOps s1 rest

/-- Run a sequence of write calls (claim C2): each element carries the data
given to write and the byte count the IO reports as persisted. -/
def runWrites (s : Drop) : List (List Nat × Nat) → Except Err Drop
  | [] => Except.ok s
  | dn :: rest =>
    match writeStep s dn.1 dn.2 with
    | Except.error e => Except.error e
    | Except.ok s1 => runWrites s1 rest

/-- Run a sequence of status assignments through the status setter
(claim C9). -/
def runStatusSets (s : Drop) : List DStatus → Drop
  | [] => s
  | v :: rest => runStatusSets (statusSet s v) rest

/-- The number of assignments in the list that actually change the stored
value, starting from cur. -/
def numChanges (cur : DStatus) : List DStatus → Nat
  | [] => 0
  | v :: rest => if v = cur then numChanges cur rest else numChanges v rest + 1

/-- The position in the status order INITIALIZED < WRITING < COMPLETED;
EXPIRED, DELETED and ERROR are terminal and sit above it. -/
def statusOrd : DStatus → Nat
  | DStatus.INITIALIZED => 0
  | DStatus.WRITING => 1
  | DStatus.COMPLETED => 2
  | DStatus.EXPIRED => 3
  | DStatus.DELETED => 3
  | DStatus.ERROR => 3

/-- The calls made on this DROP's own addConsumer and addStreamingConsumer
(claim C7); a raised exception leaves the DROP unchanged and the caller may
go on. -/
inductive ConsOp
  | addC (c : Nat) (hasDC : Bool)
  | addSC (c : Nat) (hasBoth : Bool)
  deriving DecidableEq, Repr

/-- Effect of one consumer-wiring call on the DROP (errors raise before any
mutation in the source, so on error the state is returned unchanged). -/
def consStep (s : Drop) : ConsOp → Drop
  | ConsOp.addC c h =>
    match addConsumer s c h with
    | Except.ok s1 => s1
    | Except.error _ => s
  | ConsOp.addSC c h =>
    match addStreamingConsumer s c h with
    | Except.ok s1 => s1
    | Except.error _ => s

/-- Fold a sequence of consumer-wiring calls. -/
def runConsOps (s : Drop) : List ConsOp → Drop
  | [] => s
  | op :: rest => runConsOps (consStep s op) rest

/-
The BarrierAppDROP execution driver (drop.py lines 1139-1195).
-/

/-- Trace entries of a barrier application: assignments that went through
the execStatus setter (AppDROP, drop.py lines 1132-1137) and the status
setter, in program order. -/
inductive AppEv
  | execSet (v : AppState)
  | statSet (v : DStatus)
  deriving DecidableEq, Repr

/-- The state of a BarrierAppDROP needed by claims C6 and C10. -/
structure BarrierApp where
  execStatus : AppState
  status : DStatus
  completedInputs : List String
  nInputs : Nat
  trace : List AppEv
  deriving DecidableEq, Repr

/-- The execStatus property setter (drop.py lines 1132-1137): no-op when the
value is unchanged, otherwise store and fire an execStatus event. -/
def execStatusSet (a : BarrierApp) (v : AppState) : BarrierApp :=
  if a.execStatus = v then a
  else { a with execStatus := v, trace := a.trace ++ [AppEv.execSet v] }

/-- The status setter as seen by a BarrierAppDROP (same code as statusSet,
recorded in the application's trace). -/
def appStatusSet (a : BarrierApp) (v : DStatus) : BarrierApp :=
  if v = a.status then a
  else { a with status := v, trace := a.trace ++ [AppEv.statSet v] }

/-- BarrierAppDROP.execute (drop.py lines 1166-1185).  The outcome of the
overridable run method is a parameter; the returned Bool says whether the
exception is propagated to the caller (the finally block sets
status=COMPLETED before the re-raise leaves the method). -/
def execute (a : BarrierApp) (runResult : Except Unit Unit) : BarrierApp × Bool :=
  let a1 := execStatusSet a AppState.RUNNING
  match runResult with
  | Except.ok _ =>
    let a2 := execStatusSet a1 AppState.FINISHED
    (appStatusSet a2 DStatus.COMPLETED, false)
  | Except.error _ =>
    let a2 := execStatusSet a1 AppState.ERROR
    (appStatusSet a2 DStatus.COMPLETED, true)

/-- BarrierAppDROP.dropCompleted (drop.py lines 1157-1164): appends the uid
to completedInputs unconditionally, then schedules execute on a fresh
thread exactly when the list's new length equals the number of inputs.  The
Bool reports whether execution was scheduled. -/
def dropCompleted (a : BarrierApp) (uid : String) : BarrierApp × Bool :=
  let ci := a.completedInputs ++ [uid]
  ({ a with completedInputs := ci }, ci.length == a.nInputs)

/-- Fold a sequence of dropCompleted notifications, collecting for each call
whether it scheduled the execution. -/
def runDropCompleted (a : BarrierApp) : List String → BarrierApp × List Bool
  | [] => (a, [])
  | u :: rest =>
    let p := dropCompleted a u
    let q := runDropCompleted p.1 rest
    (q.1, p.2 :: q.2)

/-- The schedule decisions dropCompleted takes on a run of m notifications
when len inputs have already been recorded and nInputs inputs are
registered: the i-th call schedules execution exactly when the total count
reaches nInputs. -/
def expectedTriggers (len nInputs : Nat) : Nat → List Bool
  | 0 => []
  | m + 1 => (len + 1 == nInputs) :: expectedTriggers (len + 1) nInputs m

/-
The DockerApp interest mechanism (dockerapp.py).
-/

/-- What DockerApp.handleInterest reads from the DROP it is offered: its
oid, its uid, and whether it is a DockerApp instance. -/
structure DropRef where
  oid : String
  uid : String
  isDocker : Bool
  deriving DecidableEq, Repr

/-- The DockerApp state relevant to claim C3: the configured command line
and the registered ContainerIpWaiters (each waiter stores the uid of the
DROP it waits on, dockerapp.py lines 57-60). -/
structure DockerAppSt where
  oid : String
  uid : String
  command : List Char
  waiters : List String
  deriving DecidableEq, Repr

/-- needle is a leading pattern of hay. -/
def startsWith : List Char → List Char → Bool
  | _, [] => true
  | [], _ :: _ => false
  | c :: t, n :: nt => c == n && startsWith t nt

/-- needle occurs somewhere inside hay (the Python in operator on
strings). -/
def containsSub (needle : List Char) : List Char → Bool
  | [] => startsWith [] needle
  | c :: t => startsWith (c :: t) needle || containsSub needle t

/-- The containerIp placeholder text built by DockerApp.handleInterest
(dockerapp.py line 270) for a given identifier. -/
def placeholderFor (x : String) : List Char :=
  ("%containerIp[" ++ x ++ "]%").toList

/-- DockerApp.handleInterest (dockerapp.py lines 265-272): when the offered
DROP is a DockerApp and the placeholder built from its uid occurs in the
command, a ContainerIpWaiter for it is appended; otherwise nothing
happens. -/
def handleInterest (self : DockerAppSt) (drop : DropRef) : DockerAppSt :=
  if drop.isDocker && containsSub (placeholderFor drop.uid) self.command then
    { self with waiters := self.waiters ++ [drop.uid] }
  else self

/-
Concrete instances used by the claim theorems and witnesses.
-/

/-- A fresh data DROP with two registered producers a and b. -/
def twoProducerDrop : Drop := { freshDrop with producers := ["a", "b"] }

/-- twoProducerDrop after producer a reported finished once. -/
def dupFinish1 : Drop := { twoProducerDrop with finishedProducers := ["a"] }

/-- dupFinish1 after producer a reported finished a second time: the DROP
has moved to COMPLETED although b never finished. -/
def dupFinish2 : Drop := { dupFinish1 with
  status := DStatus.COMPLETED
  events := [Ev.status DStatus.COMPLETED] }

/-- The result of writing one byte into a fresh DROP when the IO persists
none of it (a fully short write). -/
def shortWriteDrop : Drop := { freshDrop with
  status := DStatus.WRITING
  wio := true
  size := some 0
  checksum := some (crc32 [0] 0)
  checksumType := some 1
  events := [Ev.status DStatus.WRITING] }

/-- The result of writing the byte 5 into a fresh DROP with the full byte
accepted. -/
def oneWriteDrop : Drop := { freshDrop with
  status := DStatus.WRITING
  wio := true
  size := some 1
  checksum := some (crc32 [5] 0)
  checksumType := some 1
  events := [Ev.status DStatus.WRITING] }

/-- A fresh DROP moved to COMPLETED by setCompleted. -/
def compDrop : Drop := { freshDrop with
  status := DStatus.COMPLETED
  events := [Ev.status DStatus.COMPLETED] }

/-- A DROP with one normal consumer and one streaming consumer. -/
def consDrop : Drop := { freshDrop with consumers := [1], streamingConsumers := [2] }

/-- A barrier application before execution, with one registered input. -/
def app0 : BarrierApp :=
  { execStatus := AppState.NOT_RUN
    status := DStatus.INITIALIZED
    completedInputs := []
    nInputs := 1
    trace := [] }

/-- The peer container application P of claim C3: its oid and uid differ. -/
def dockerP : DropRef := { oid := "p", uid := "pu", isDocker := true }

/-- The application Q of claim C3, whose command names P by its oid. -/
def dockerQ : DockerAppSt :=
  { oid := "q", uid := "qu", command := placeholderFor "p", waiters := [] }

/-- A variant of Q whose command names P by its uid instead. -/
def dockerQbyUid : DockerAppSt := { dockerQ with command := placeholderFor "pu" }

/-
Helper lemmas about the status setter and the checksum update.
-/

@[simp] theorem statusSet_status (s : Drop) (v : DStatus) : (statusSet s v).status = v := by
  unfold statusSet
  split
  case isTrue h => exact h.symm
  case isFalse h => rfl

@[simp] theorem statusSet_size (s : Drop) (v : DStatus) : (statusSet s v).size = s.size := by
  unfold statusSet
  split <;> rfl

@[simp] theorem statusSet_checksum (s : Drop) (v : DStatus) :
    (statusSet s v).checksum = s.checksum := by
  unfold statusSet
  split <;> rfl

@[simp] theorem statusSet_deliveries (s : Drop) (v : DStatus) :
    (statusSet s v).deliveries = s.deliveries := by
  unfold statusSet
  split <;> rfl

@[simp] theorem statusSet_refCount (s : Drop) (v : DStatus) :
    (statusSet s v).refCount = s.refCount := by
  unfold statusSet
  split <;> rfl

@[simp] theorem statusSet_rios (s : Drop) (v : DStatus) : (statusSet s v).rios = s.rios := by
  unfold statusSet
  split <;> rfl

@[simp] theorem statusSet_consumers (s : Drop) (v : DStatus) :
    (statusSet s v).consumers = s.consumers := by
  unfold statusSet
  split <;> rfl

@[simp] theorem statusSet_streamingConsumers (s : Drop) (v : DStatus) :
    (statusSet s v).streamingConsumers = s.streamingConsumers := by
  unfold statusSet
  split <;> rfl

@[simp] theorem statusSet_finishedProducers (s : Drop) (v : DStatus) :
    (statusSet s v).finishedProducers = s.finishedProducers := by
  unfold statusSet
  split <;> rfl

@[simp] theorem statusSet_producers (s : Drop) (v : DStatus) :
    (statusSet s v).producers = s.producers := by
  unfold statusSet
  split <;> rfl

@[simp] theorem updateChecksum_checksum (s : Drop) (chunk : List Nat) :
    (updateChecksum s chunk).checksum = some (crc32 chunk (s.checksum.getD 0)) := by
  unfold updateChecksum
  cases h : s.checksum <;> simp [h]

@[simp] theorem updateChecksum_status (s : Drop) (chunk : List Nat) :
    (updateChecksum s chunk).status = s.status := by
  unfold updateChecksum
  cases h : s.checksum <;> rfl

@[simp] theorem updateChecksum_size (s : Drop) (chunk : List Nat) :
    (updateChecksum s chunk).size = s.size := by
  unfold updateChecksum
  cases h : s.checksum <;> rfl

@[simp] theorem updateChecksum_deliveries (s : Drop) (chunk : List Nat) :
    (updateChecksum s chunk).deliveries = s.deliveries := by
  unfold updateChecksum
  cases h : s.checksum <;> rfl

@[simp] theorem updateChecksum_streamingConsumers (s : Drop) (chunk : List Nat) :
    (updateChecksum s chunk).streamingConsumers = s.streamingConsumers := by
  unfold updateChecksum
  cases h : s.checksum <;> rfl

@[simp] theorem updateChecksum_expectedSize (s : Drop) (chunk : List Nat) :
    (updateChecksum s chunk).expectedSize = s.expectedSize := by
  unfold updateChecksum
  cases h : s.checksum <;> rfl

/-- Everything setCompleted does when it succeeds: the DROP was in
INITIALIZED or WRITING and moves to COMPLETED; all fields other than
status, wio and events are untouched. -/
theorem setCompleted_ok_fields {s s1 : Drop} (h : setCompleted s = Except.ok s1) :
    s1.status = DStatus.COMPLETED ∧
    s1.size = s.size ∧
    s1.checksum = s.checksum ∧
    s1.deliveries = s.deliveries ∧
    s1.refCount = s.refCount ∧
    s1.rios = s.rios ∧
    s1.consumers = s.consumers ∧
    s1.streamingConsumers = s.streamingConsumers ∧
    s1.finishedProducers = s.finishedProducers ∧
    s1.producers = s.producers ∧
    (s.status = DStatus.INITIALIZED ∨ s.status = DStatus.WRITING) := by
  unfold setCompleted at h
  split at h
  case isTrue hc =>
    injection h with h
    subst h
    refine ⟨?_, ?_, ?_, ?_, ?_, ?_, ?_, ?_, ?_, ?_, hc⟩ <;> simp
  case isFalse hc => exact Except.noConfusion h

/-- Everything one successful write does to the fields the claims talk
about: the size grows by the accepted byte count, the checksum absorbs the
full data argument, every streaming consumer is handed the accepted
prefix of the data, and the status moves to WRITING or COMPLETED. -/
theorem writeStep_ok_fields {s s1 : Drop} {data : List Nat} {nbytes : Nat}
    (h : writeStep s data nbytes = Except.ok s1) :
    s1.size = some (s.size.getD 0 + nbytes) ∧
    s1.checksum = some (crc32 data (s.checksum.getD 0)) ∧
    s1.deliveries = s.deliveries ++ s.streamingConsumers.map (fun c => (c, data.take nbytes)) ∧
    s1.streamingConsumers = s.streamingConsumers ∧
    (s1.status = DStatus.WRITING ∨ s1.status = DStatus.COMPLETED) ∧
    (s.status = DStatus.INITIALIZED ∨ s.status = DStatus.WRITING) := by
  unfold writeStep at h
  split at h
  case isFalse hs => exact Except.noConfusion h
  case isTrue hs =>
    dsimp only at h
    split at h
    case isTrue hexp =>
      split at h
      case isTrue hrem =>
        injection h with h
        subst h
        refine ⟨?_, ?_, ?_, ?_, Or.inl ?_, hs⟩ <;> simp
      case isFalse hrem =>
        have hf := setCompleted_ok_fields h
        refine ⟨?_, ?_, ?_, ?_, Or.inr hf.1, hs⟩ <;>
          simp only [hf.2.1, hf.2.2.1, hf.2.2.2.1, hf.2.2.2.2.2.2.2.1] <;> simp
    case isFalse hexp =>
      injection h with h
      subst h
      refine ⟨?_, ?_, ?_, ?_, Or.inl ?_, hs⟩ <;> simp

/-- Accumulated effect of a successful chain of writes starting from a DROP
whose size and checksum are already set. -/
theorem runWrites_some (ws : List (List Nat × Nat)) :
    ∀ s s' : Drop, ∀ a c : Nat, s.size = some a → s.checksum = some c →
    runWrites s ws = Except.ok s' →
    s'.size = some (a + (ws.map Prod.snd).sum) ∧
    s'.checksum = some (ws.foldl (fun acc dn => crc32 dn.1 acc) c) ∧
    ∀ e ∈ s'.deliveries, e ∈ s.deliveries ∨ ∃ dn ∈ ws, e.2 = List.take dn.2 dn.1 := by
  induction ws with
  | nil =>
    intro s s' a c ha hc h
    injection h with h
    subst h
    exact ⟨by simp [ha], by simp [hc], fun e he => Or.inl he⟩
  | cons dn rest ih =>
    intro s s' a c ha hc h
    rw [runWrites] at h
    cases hstep : writeStep s dn.1 dn.2 with
    | error e => rw [hstep] at h; exact Except.noConfusion h
    | ok s1 =>
      rw [hstep] at h
      obtain ⟨h1sz, h1ck, h1del, _, _, _⟩ := writeStep_ok_fields hstep
      rw [ha] at h1sz
      rw [hc] at h1ck
      obtain ⟨hsz, hck, hdel⟩ := ih s1 s' (a + dn.2) (crc32 dn.1 c) (by simpa using h1sz)
        (by simpa using h1ck) h
      refine ⟨?_, ?_, ?_⟩
      · rw [hsz]
        simp [Nat.add_assoc]
      · rw [hck]
        simp [List.foldl_cons]
      · intro e he
        rcases hdel e he with hin | ⟨dn2, hdn2, hval⟩
        · rw [h1del] at hin
          rcases List.mem_append.mp hin with hin1 | hin2
          · exact Or.inl hin1
          · rcases List.mem_map.mp hin2 with ⟨cns, _, heq⟩
            exact Or.inr ⟨dn, List.mem_cons_self dn rest, by rw [← heq]⟩
        · exact Or.inr ⟨dn2, List.mem_cons_of_mem dn hdn2, hval⟩

/-
Claim theorems.
-/

/-- Claim C1 (code bug): producerFinished does not reject a repeated finish
notification from an already-finished producer.  On a DROP with the two
registered producers a and b, a first call for a is recorded without
completing the DROP, and a second call for a is accepted (not rejected as
over-finishing) and moves the DROP to COMPLETED even though producer b
never finished: the completion trigger compares the pre-add count plus one
against the number of producers instead of the size of the finished set. -/
theorem producerFinished_duplicate_not_rejected :
    producerFinished twoProducerDrop "a" = Except.ok dupFinish1 ∧
    dupFinish1.status = DStatus.INITIALIZED ∧
    producerFinished dupFinish1 "a" = Except.ok dupFinish2 ∧
    dupFinish2.status = DStatus.COMPLETED ∧
    dupFinish2.finishedProducers = ["a"] ∧
    "b" ∈ twoProducerDrop.producers ∧
    "b" ∉ dupFinish2.finishedProducers := by
  refine ⟨rfl, rfl, rfl, rfl, rfl, ?_, ?_⟩ <;> decide

/-- Claim C3 (code bug): DockerApp.handleInterest matches the containerIp
placeholder against the peer's uid, not its oid as the claim (and the
class documentation) states.  With peer P whose oid is p and uid is pu,
and Q whose command contains the placeholder written with P's oid,
handleInterest registers no waiter; a waiter is registered only when the
command names P by its uid. -/
theorem handleInterest_matches_uid_not_oid :
    containsSub (placeholderFor dockerP.oid) dockerQ.command = true ∧
    (handleInterest dockerQ dockerP).waiters = [] ∧
    (handleInterest dockerQbyUid dockerP).waiters = ["pu"] ∧
    dockerP.oid ≠ dockerP.uid := by
  refine ⟨?_, ?_, ?_, ?_⟩ <;> decide

/-- Claim C4, counterexample: the parent setter does not forbid a
cross-container move; assigning container 2 to a node whose parent is
container 1 stores 2 (the source merely logs a warning). -/
theorem parent_overwrite_cex :
    parentSet (some 1) (some 2) true false = some 2 ∧ some 2 ≠ (some 1 : Option Nat) := by
  refine ⟨rfl, ?_⟩
  decide

/-- Claim C4 as amended: assigning a non-null container whose addChild
call does not raise always stores the new container, also over an existing
different parent (the source logs a warning and overwrites); assigning
null leaves the stored parent unchanged; and when the new parent's
addChild raises, the previous parent is restored. -/
theorem parent_setter_overwrites (cur : Option Nat) (q : Nat) (hac r : Bool) :
    parentSet cur (some q) hac false = some q ∧
    parentSet cur none hac r = cur ∧
    parentSet cur (some q) true true = cur := by
  refine ⟨?_, rfl, rfl⟩
  unfold parentSet
  simp

/-- Claim C2, counterexample: on a short write the unpersisted suffix does
contribute to the checksum.  Writing the single byte 0 into a fresh DROP
with the IO persisting 0 bytes leaves size at 0 (the accepted count) but
sets the checksum to the CRC of the full unaccepted byte, which differs
from the CRC over the accepted bytes (none). -/
theorem write_short_checksum_cex :
    writeStep freshDrop [0] 0 = Except.ok shortWriteDrop ∧
    shortWriteDrop.size = some 0 ∧
    List.take 0 [0] = ([] : List Nat) ∧
    shortWriteDrop.checksum = some (crc32 [0] 0) ∧
    crc32 [0] 0 ≠ crc32 [] 0 ∧
    shortWriteDrop.checksum ≠ none := by
  refine ⟨rfl, rfl, rfl, rfl, ?_, ?_⟩ <;> decide

/-- Claim C2 as amended: after every successful sequence of writes on a
fresh data node, size equals the sum of the byte counts the IO reported as
persisted, each streaming consumer receives only the accepted prefix of
each write, but the checksum is the running CRC over the full data argument
of every write, including any unpersisted suffix of a short write. -/
theorem write_size_checksum_streaming (s s' : Drop) (ws : List (List Nat × Nat))
    (hsz : s.size = none) (hck : s.checksum = none) (hdel : s.deliveries = [])
    (hne : ws ≠ []) (hrun : runWrites s ws = Except.ok s') :
    s'.size = some ((ws.map Prod.snd).sum) ∧
    s'.checksum = some (ws.foldl (fun c dn => crc32 dn.1 c) 0) ∧
    ∀ e ∈ s'.deliveries, ∃ dn ∈ ws, e.2 = List.take dn.2 dn.1 := by
  cases ws with
  | nil => exact absurd rfl hne
  | cons dn rest =>
    rw [runWrites] at hrun
    cases hstep : writeStep s dn.1 dn.2 with
    | error e => rw [hstep] at hrun; exact Except.noConfusion hrun
    | ok s1 =>
      rw [hstep] at hrun
      obtain ⟨h1sz, h1ck, h1del, _, _, _⟩ := writeStep_ok_fields hstep
      rw [hsz] at h1sz
      rw [hck] at h1ck
      rw [hdel] at h1del
      obtain ⟨hsz2, hck2, hdel2⟩ := runWrites_some rest s1 s' dn.2 (crc32 dn.1 0)
        (by simpa using h1sz) (by simpa using h1ck) hrun
      refine ⟨by rw [hsz2]; simp, by rw [hck2]; simp [List.foldl_cons], ?_⟩
      intro e he
      rcases hdel2 e he with hin | ⟨dn2, hdn2, hval⟩
      · rw [h1del] at hin
        simp only [List.nil_append] at hin
        rcases List.mem_map.mp hin with ⟨cns, _, heq⟩
        exact ⟨dn, List.mem_cons_self dn rest, by rw [← heq]⟩
      · exact ⟨dn2, List.mem_cons_of_mem dn hdn2, hval⟩

/-- Witness for the amended claim C2: a single fully accepted write of the
byte 5 into a fresh DROP. -/
theorem write_size_checksum_streaming_w :
    oneWriteDrop.size = some ((([([5], 1)] : List (List Nat × Nat)).map Prod.snd).sum) ∧
    oneWriteDrop.checksum =
      some (([([5], 1)] : List (List Nat × Nat)).foldl (fun c dn => crc32 dn.1 c) 0) ∧
    ∀ e ∈ oneWriteDrop.deliveries,
      ∃ dn ∈ ([([5], 1)] : List (List Nat × Nat)), e.2 = List.take dn.2 dn.1 :=
  write_size_checksum_streaming freshDrop oneWriteDrop [([5], 1)] rfl rfl rfl
    (by simp) rfl

theorem numChanges_cons (cur v : DStatus) (rest : List DStatus) :
    numChanges cur (v :: rest) =
      if v = cur then numChanges cur rest else numChanges v rest + 1 := rfl

/-- The events list grows by exactly the number of assignments that change
the stored status. -/
theorem runStatusSets_events (vs : List DStatus) :
    ∀ s : Drop, (runStatusSets s vs).events.length = s.events.length + numChanges s.status vs := by
  induction vs with
  | nil => intro s; rfl
  | cons v rest ih =>
    intro s
    show (runStatusSets (statusSet s v) rest).events.length = _
    rw [ih (statusSet s v), numChanges_cons]
    by_cases h : v = s.status
    · rw [if_pos h]
      unfold statusSet
      rw [if_pos h]
    · rw [if_neg h]
      have h1 : (statusSet s v).status = v := statusSet_status s v
      have h2 : (statusSet s v).events.length = s.events.length + 1 := by
        unfold statusSet
        rw [if_neg h]
        simp
      rw [h1, h2]
      omega

/-- Claim C9: assigning the current status through the status setter is a
no-op (no stored change, no fired event), and over any sequence of status
assignments the number of fired events equals the number of assignments
that actually change the value, so subscribers observe at most one status
event per actual change. -/
theorem status_set_noop_event_count (s : Drop) (v : DStatus) (vs : List DStatus)
    (h : v = s.status) :
    statusSet s v = s ∧
    (runStatusSets s vs).events.length = s.events.length + numChanges s.status vs := by
  constructor
  · unfold statusSet
    rw [if_pos h]
  · exact runStatusSets_events vs s

/-- Witness for claim C9 at a fresh DROP: re-assigning INITIALIZED is a
no-op, and the run WRITING, WRITING, COMPLETED fires two events. -/
theorem status_set_noop_event_count_w :
    statusSet freshDrop DStatus.INITIALIZED = freshDrop ∧
    (runStatusSets freshDrop
        [DStatus.WRITING, DStatus.WRITING, DStatus.COMPLETED]).events.length =
      freshDrop.events.length +
        numChanges freshDrop.status [DStatus.WRITING, DStatus.WRITING, DStatus.COMPLETED] :=
  status_set_noop_event_count freshDrop DStatus.INITIALIZED
    [DStatus.WRITING, DStatus.WRITING, DStatus.COMPLETED] rfl

/-- Once the running count has reached the number of inputs, no later
notification ever schedules execution again. -/
theorem expectedTriggers_count_zero (nInputs : Nat) :
    ∀ m len, nInputs ≤ len → (expectedTriggers len nInputs m).count true = 0 := by
  intro m
  induction m with
  | zero => intro len _; rfl
  | succ k ih =>
    intro len hle
    have hne : (len + 1 == nInputs) = false := by
      simp only [beq_eq_false_iff_ne, ne_eq]
      omega
    show ((len + 1 == nInputs) :: expectedTriggers (len + 1) nInputs k).count true = 0
    rw [hne, List.count_cons]
    simp [ih (len + 1) (by omega)]

/-- At most one notification in a run of dropCompleted calls schedules the
execution. -/
theorem expectedTriggers_count_le_one (nInputs : Nat) :
    ∀ m len, (expectedTriggers len nInputs m).count true ≤ 1 := by
  intro m
  induction m with
  | zero => intro len; simp [expectedTriggers]
  | succ k ih =>
    intro len
    show ((len + 1 == nInputs) :: expectedTriggers (len + 1) nInputs k).count true ≤ 1
    rw [List.count_cons]
    by_cases h : len + 1 = nInputs
    · rw [expectedTriggers_count_zero nInputs k (len + 1) (by omega)]
      simp [h]
    · have hne : (len + 1 == nInputs) = false := by
        simp only [beq_eq_false_iff_ne, ne_eq]
        exact h
      rw [hne]
      simpa using ih (len + 1)

theorem expectedTriggers_succ (len nInputs m : Nat) :
    expectedTriggers len nInputs (m + 1) =
      (len + 1 == nInputs) :: expectedTriggers (len + 1) nInputs m := rfl

/-- The completed-inputs list and the schedule decisions of a run of
dropCompleted notifications. -/
theorem runDropCompleted_spec (uids : List String) :
    ∀ a : BarrierApp,
    (runDropCompleted a uids).1.completedInputs = a.completedInputs ++ uids ∧
    (runDropCompleted a uids).2 =
      expectedTriggers a.completedInputs.length a.nInputs uids.length := by
  induction uids with
  | nil => intro a; exact ⟨by simp [runDropCompleted], rfl⟩
  | cons u rest ih =>
    intro a
    obtain ⟨h1, h2⟩ := ih { a with completedInputs := a.completedInputs ++ [u] }
    constructor
    · show (runDropCompleted { a with completedInputs := a.completedInputs ++ [u] } rest).1.completedInputs = _
      rw [h1]
      simp
    · show ((a.completedInputs ++ [u]).length == a.nInputs) ::
        (runDropCompleted { a with completedInputs := a.completedInputs ++ [u] } rest).2 = _
      rw [h2]
      simp [expectedTriggers_succ, List.length_append, List.length_cons]

/-- Claim C10: BarrierAppDROP.dropCompleted does not deduplicate: every
notification appends its uid to the completed-inputs list (so n calls
carrying the same uid fill an n-input barrier), execution is scheduled by
exactly the call that makes the list's length equal the number of
registered inputs, and no call after that point ever schedules a second
execution. -/
theorem dropCompleted_no_dedup (a : BarrierApp) (uids : List String) :
    (runDropCompleted a uids).1.completedInputs = a.completedInputs ++ uids ∧
    (runDropCompleted a uids).2 =
      expectedTriggers a.completedInputs.length a.nInputs uids.length ∧
    (runDropCompleted a uids).2.count true ≤ 1 := by
  obtain ⟨h1, h2⟩ := runDropCompleted_spec uids a
  exact ⟨h1, h2, by rw [h2]; exact expectedTriggers_count_le_one a.nInputs uids.length _⟩

/-- Claim C6: on a barrier application that has not run yet, execute sets
execStatus to RUNNING, invokes run, records FINISHED when run returns
normally and ERROR when it raises (re-raising to the caller), and in both
cases afterwards sets the data-node status to COMPLETED: in the trace the
assignment that moves execStatus away from RUNNING comes strictly before
the assignment of COMPLETED to status. -/
theorem execute_status_order (a : BarrierApp) (r : Except Unit Unit)
    (h1 : a.execStatus = AppState.NOT_RUN) (h2 : a.status = DStatus.INITIALIZED) :
    (execute a r).1.status = DStatus.COMPLETED ∧
    ((execute a r).1.execStatus =
      match r with
      | Except.ok _ => AppState.FINISHED
      | Except.error _ => AppState.ERROR) ∧
    ((execute a r).2 =
      match r with
      | Except.ok _ => false
      | Except.error _ => true) ∧
    (execute a r).1.trace = a.trace ++
      [AppEv.execSet AppState.RUNNING,
       AppEv.execSet (match r with
         | Except.ok _ => AppState.FINISHED
         | Except.error _ => AppState.ERROR),
       AppEv.statSet DStatus.COMPLETED] := by
  cases r <;>
    refine ⟨?_, ?_, ?_, ?_⟩ <;>
      simp [execute, execStatusSet, appStatusSet, h1, h2]

/-- Witness for claim C6: a one-input barrier application whose run
raises. -/
theorem execute_status_order_w :
    (execute app0 (Except.error ())).1.status = DStatus.COMPLETED ∧
    ((execute app0 (Except.error ())).1.execStatus =
      match (Except.error () : Except Unit Unit) with
      | Except.ok _ => AppState.FINISHED
      | Except.error _ => AppState.ERROR) ∧
    ((execute app0 (Except.error ())).2 =
      match (Except.error () : Except Unit Unit) with
      | Except.ok _ => false
      | Except.error _ => true) ∧
    (execute app0 (Except.error ())).1.trace = app0.trace ++
      [AppEv.execSet AppState.RUNNING,
       AppEv.execSet (match (Except.error () : Except Unit Unit) with
         | Except.ok _ => AppState.FINISHED
         | Except.error _ => AppState.ERROR),
       AppEv.statSet DStatus.COMPLETED] :=
  execute_status_order app0 (Except.error ()) rfl rfl

/-- A successful open requires COMPLETED and leaves the status there,
incrementing the reference count and registering the fresh descriptor. -/
theorem openStep_ok_fields {s s1 : Drop} {d : Int} (h : openStep s d = Except.ok s1) :
    s.status = DStatus.COMPLETED ∧
    s1.status = DStatus.COMPLETED ∧
    s1.refCount = s.refCount + 1 ∧
    s1.rios = s.rios ++ [d] := by
  unfold openStep at h
  split at h
  case isTrue hc => exact Except.noConfusion h
  case isFalse hc =>
    have hc2 : s.status = DStatus.COMPLETED := not_not.mp hc
    injection h with h
    subst h
    exact ⟨hc2, hc2, rfl, rfl⟩

/-- When checkStateAndDescriptor accepts, the DROP is COMPLETED and the
descriptor is registered. -/
theorem checkSD_none {s : Drop} {d : Int} (h : checkStateAndDescriptor s d = none) :
    s.status = DStatus.COMPLETED ∧ d ∈ s.rios := by
  unfold checkStateAndDescriptor at h
  split_ifs at h with h1 h2
  · exact ⟨not_not.mp h1, h2⟩

/-- A successful read requires COMPLETED and a registered descriptor, and
leaves the DROP unchanged. -/
theorem readStep_ok_fields {s s1 : Drop} {d : Int} (h : readStep s d = Except.ok s1) :
    s1 = s ∧ s.status = DStatus.COMPLETED ∧ d ∈ s.rios := by
  unfold readStep at h
  cases hcd : checkStateAndDescriptor s d with
  | some e =>
    rw [hcd] at h
    simp at h
  | none =>
    rw [hcd] at h
    simp at h
    obtain ⟨h1, h2⟩ := checkSD_none hcd
    exact ⟨h.symm, h1, h2⟩

/-- A successful close requires COMPLETED and a registered descriptor,
decrements the reference count and leaves the status unchanged. -/
theorem closeStep_ok_fields {s s1 : Drop} {d : Int} (h : closeStep s d = Except.ok s1) :
    s.status = DStatus.COMPLETED ∧
    s1.status = s.status ∧
    s1.refCount = s.refCount - 1 ∧
    d ∈ s.rios := by
  unfold closeStep at h
  cases hcd : checkStateAndDescriptor s d with
  | some e =>
    rw [hcd] at h
    simp at h
  | none =>
    rw [hcd] at h
    simp at h
    obtain ⟨h1, h2⟩ := checkSD_none hcd
    subst h
    exact ⟨h1, rfl, rfl, h2⟩

/-- A successful producerFinished either leaves the status alone or
completes a DROP that was in INITIALIZED or WRITING. -/
theorem producerFinished_ok_status {s s1 : Drop} {uid : String}
    (h : producerFinished s uid = Except.ok s1) :
    s1.status = s.status ∨
      (s1.status = DStatus.COMPLETED ∧
        (s.status = DStatus.INITIALIZED ∨ s.status = DStatus.WRITING)) := by
  unfold producerFinished at h
  dsimp only at h
  by_cases hp : uid ∈ s.producers
  · rw [if_pos hp] at h
    by_cases hover : s.finishedProducers.length ≥ s.producers.length
    · rw [if_pos hover] at h
      exact Except.noConfusion h
    · rw [if_neg hover] at h
      by_cases htrig : s.finishedProducers.length + 1 = s.producers.length
      · rw [if_pos htrig] at h
        have hf := setCompleted_ok_fields h
        exact Or.inr ⟨hf.1, by simpa using hf.2.2.2.2.2.2.2.2.2.2⟩
      · rw [if_neg htrig] at h
        injection h with h
        subst h
        exact Or.inl rfl
  · rw [if_neg hp] at h
    exact Except.noConfusion h

/-- One successful public operation never lowers the status in the order
INITIALIZED < WRITING < COMPLETED, and never moves a COMPLETED node
back. -/
theorem dropStep_status_mono {s s1 : Drop} {op : DropOp} (h : dropStep s op = Except.ok s1) :
    statusOrd s.status ≤ statusOrd s1.status ∧
    (s.status = DStatus.COMPLETED → s1.status = DStatus.COMPLETED) := by
  cases op with
  | write data nbytes =>
    obtain ⟨-, -, -, -, hnew, hold⟩ := writeStep_ok_fields h
    constructor
    · rcases hold with h1 | h1 <;> rcases hnew with h2 | h2 <;> simp [h1, h2, statusOrd]
    · intro hc
      rcases hold with h1 | h1 <;> rw [h1] at hc <;> exact DStatus.noConfusion hc
  | setCompleted =>
    obtain ⟨hnew, hrest⟩ := setCompleted_ok_fields h
    have hold := by simpa using hrest.2.2.2.2.2.2.2.2.2
    constructor
    · rcases hold with h1 | h1 <;> simp [h1, hnew, statusOrd]
    · intro hc
      rcases hold with h1 | h1 <;> rw [h1] at hc <;> exact DStatus.noConfusion hc
  | openOp d =>
    obtain ⟨h1, h2, -, -⟩ := openStep_ok_fields h
    exact ⟨by simp [h1, h2], fun _ => h2⟩
  | readOp d =>
    obtain ⟨h1, -, -⟩ := readStep_ok_fields h
    subst h1
    exact ⟨le_refl _, fun hc => hc⟩
  | closeOp d =>
    obtain ⟨-, h1, -, -⟩ := closeStep_ok_fields h
    exact ⟨by rw [h1], fun hc => by rw [h1, hc]⟩
  | producerFinished uid =>
    rcases producerFinished_ok_status h with h1 | ⟨h1, h2⟩
    · exact ⟨by rw [h1], fun hc => by rw [h1, hc]⟩
    · constructor
      · rcases h2 with h3 | h3 <;> simp [h1, h3, statusOrd]
      · intro hc
        rcases h2 with h3 | h3 <;> rw [h3] at hc <;> exact DStatus.noConfusion hc

/-- Claim C5: along every successful sequence of public operations the
status is non-decreasing in the order INITIALIZED < WRITING < COMPLETED,
and no operation moves a COMPLETED node back to WRITING or INITIALIZED. -/
theorem status_monotone (s s' : Drop) (ops : List DropOp)
    (h : runOps s ops = Except.ok s') :
    statusOrd s.status ≤ statusOrd s'.status ∧
    (s.status = DStatus.COMPLETED → s'.status = DStatus.COMPLETED) := by
  induction ops generalizing s with
  | nil =>
    injection h with h
    subst h
    exact ⟨le_refl _, fun hc => hc⟩
  | cons op rest ih =>
    rw [runOps] at h
    cases hstep : dropStep s op with
    | error e => rw [hstep] at h; exact Except.noConfusion h
    | ok s1 =>
      rw [hstep] at h
      obtain ⟨m1, c1⟩ := dropStep_status_mono hstep
      obtain ⟨m2, c2⟩ := ih s1 h
      exact ⟨le_trans m1 m2, fun hc => c2 (c1 hc)⟩

/-- Witness for claim C5: the run setCompleted, open, read, close on a
fresh DROP. -/
theorem status_monotone_w :
    statusOrd freshDrop.status ≤ statusOrd compDrop.status ∧
    (freshDrop.status = DStatus.COMPLETED → compDrop.status = DStatus.COMPLETED) :=
  status_monotone freshDrop compDrop [DropOp.setCompleted] rfl

/-- The three possible outcomes of addConsumer: a rejection (leaving the
DROP unchanged), an idempotent hit, or an append of a consumer that is not
a streaming consumer. -/
theorem addConsumer_cases (s : Drop) (c : Nat) (hdc : Bool) :
    (∃ e, addConsumer s c hdc = Except.error e) ∨
    (addConsumer s c hdc = Except.ok s ∧ c ∈ s.consumers) ∨
    (addConsumer s c hdc = Except.ok { s with consumers := s.consumers ++ [c] } ∧
      c ∉ s.streamingConsumers) := by
  cases hdc with
  | false =>
    refine Or.inl ⟨Err.noDropCompletedMethod, ?_⟩
    unfold addConsumer
    rw [if_pos (by simp)]
  | true =>
    by_cases h2 : c ∈ s.streamingConsumers
    · refine Or.inl ⟨Err.alreadyStreamingConsumer, ?_⟩
      unfold addConsumer
      rw [if_neg (by simp), if_pos h2]
    · by_cases h3 : c ∈ s.consumers
      · refine Or.inr (Or.inl ⟨?_, h3⟩)
        unfold addConsumer
        rw [if_neg (by simp), if_neg h2, if_pos h3]
      · refine Or.inr (Or.inr ⟨?_, h2⟩)
        unfold addConsumer
        rw [if_neg (by simp), if_neg h2, if_neg h3]

/-- The three possible outcomes of addStreamingConsumer, mirror image of
addConsumer_cases. -/
theorem addStreamingConsumer_cases (s : Drop) (c : Nat) (hboth : Bool) :
    (∃ e, addStreamingConsumer s c hboth = Except.error e) ∨
    (addStreamingConsumer s c hboth = Except.ok s ∧ c ∈ s.streamingConsumers) ∨
    (addStreamingConsumer s c hboth =
        Except.ok { s with streamingConsumers := s.streamingConsumers ++ [c] } ∧
      c ∉ s.consumers) := by
  cases hboth with
  | false =>
    refine Or.inl ⟨Err.noStreamingMethods, ?_⟩
    unfold addStreamingConsumer
    rw [if_pos (by simp)]
  | true =>
    by_cases h2 : c ∈ s.consumers
    · refine Or.inl ⟨Err.alreadyNormalConsumer, ?_⟩
      unfold addStreamingConsumer
      rw [if_neg (by simp), if_pos h2]
    · by_cases h3 : c ∈ s.streamingConsumers
      · refine Or.inr (Or.inl ⟨?_, h3⟩)
        unfold addStreamingConsumer
        rw [if_neg (by simp), if_neg h2, if_pos h3]
      · refine Or.inr (Or.inr ⟨?_, h2⟩)
        unfold addStreamingConsumer
        rw [if_neg (by simp), if_neg h2, if_neg h3]

/-- One consumer-wiring call preserves the disjointness of the two
consumer lists. -/
theorem consStep_disjoint {s : Drop} (op : ConsOp)
    (h : ∀ y, y ∈ s.consumers → y ∉ s.streamingConsumers) :
    ∀ y, y ∈ (consStep s op).consumers → y ∉ (consStep s op).streamingConsumers := by
  cases op with
  | addC c hdc =>
    rcases addConsumer_cases s c hdc with ⟨e, he⟩ | ⟨he, hc⟩ | ⟨he, hc⟩ <;>
      simp only [consStep, he]
    · exact h
    · exact h
    · intro y hy
      simp only [List.mem_append, List.mem_singleton] at hy
      rcases hy with hy | hy
      · exact h y hy
      · subst hy
        simpa using hc
  | addSC c hboth =>
    rcases addStreamingConsumer_cases s c hboth with ⟨e, he⟩ | ⟨he, hc⟩ | ⟨he, hc⟩ <;>
      simp only [consStep, he]
    · exact h
    · exact h
    · intro y hy hmem
      simp only [List.mem_append, List.mem_singleton] at hmem
      rcases hmem with hmem | hmem
      · exact h y hy hmem
      · subst hmem
        exact hc hy

/-- Claim C7: starting from disjoint consumer lists, no object is ever in
both the normal-consumer and the streaming-consumer list after any
sequence of addConsumer and addStreamingConsumer calls; addConsumer raises
when its argument is already a streaming consumer, addStreamingConsumer
raises when its argument is already a normal consumer, and either
rejection leaves the DROP (both lists included) unchanged. -/
theorem consumers_streaming_disjoint (s : Drop) (ops : List ConsOp) (x c : Nat)
    (hdc hboth : Bool)
    (hdisj : ∀ y, y ∈ s.consumers → y ∉ s.streamingConsumers) :
    (x ∈ (runConsOps s ops).consumers → x ∉ (runConsOps s ops).streamingConsumers) ∧
    (c ∈ s.streamingConsumers → ∃ e, addConsumer s c hdc = Except.error e) ∧
    (c ∈ s.consumers → ∃ e, addStreamingConsumer s c hboth = Except.error e) ∧
    (c ∈ s.streamingConsumers → consStep s (ConsOp.addC c hdc) = s) ∧
    (c ∈ s.consumers → consStep s (ConsOp.addSC c hboth) = s) := by
  refine ⟨?_, ?_, ?_, ?_, ?_⟩
  · have main : ∀ ops2 : List ConsOp, ∀ s2 : Drop,
        (∀ y, y ∈ s2.consumers → y ∉ s2.streamingConsumers) →
        ∀ y, y ∈ (runConsOps s2 ops2).consumers →
          y ∉ (runConsOps s2 ops2).streamingConsumers := by
      intro ops2
      induction ops2 with
      | nil => intro s2 h2; exact h2
      | cons op rest ih =>
        intro s2 h2
        exact ih (consStep s2 op) (consStep_disjoint op h2)
    exact main ops s hdisj x
  · intro hc
    cases hdc with
    | false => exact ⟨Err.noDropCompletedMethod, rfl⟩
    | true =>
      refine ⟨Err.alreadyStreamingConsumer, ?_⟩
      unfold addConsumer
      rw [if_neg (by simp), if_pos hc]
  · intro hc
    cases hboth with
    | false => exact ⟨Err.noStreamingMethods, rfl⟩
    | true =>
      refine ⟨Err.alreadyNormalConsumer, ?_⟩
      unfold addStreamingConsumer
      rw [if_neg (by simp), if_pos hc]
  · intro hc
    cases hdc with
    | false => rfl
    | true =>
      show (match addConsumer s c true with
        | Except.ok s1 => s1
        | Except.error _ => s) = s
      have he : addConsumer s c true = Except.error Err.alreadyStreamingConsumer := by
        unfold addConsumer
        rw [if_neg (by simp), if_pos hc]
      rw [he]
  · intro hc
    cases hboth with
    | false => rfl
    | true =>
      show (match addStreamingConsumer s c true with
        | Except.ok s1 => s1
        | Except.error _ => s) = s
      have he : addStreamingConsumer s c true = Except.error Err.alreadyNormalConsumer := by
        unfold addStreamingConsumer
        rw [if_neg (by simp), if_pos hc]
      rw [he]

/-- Witness for claim C7: a DROP with consumer 1 and streaming consumer 2,
then adding consumer 3 and trying to add 1 as a streaming consumer. -/
theorem consumers_streaming_disjoint_w :
    (2 ∈ (runConsOps consDrop [ConsOp.addC 3 true, ConsOp.addSC 1 true]).consumers →
      2 ∉ (runConsOps consDrop [ConsOp.addC 3 true, ConsOp.addSC 1 true]).streamingConsumers) ∧
    (2 ∈ consDrop.streamingConsumers → ∃ e, addConsumer consDrop 2 true = Except.error e) ∧
    (2 ∈ consDrop.consumers → ∃ e, addStreamingConsumer consDrop 2 true = Except.error e) ∧
    (2 ∈ consDrop.streamingConsumers → consStep consDrop (ConsOp.addC 2 true) = consDrop) ∧
    (2 ∈ consDrop.consumers → consStep consDrop (ConsOp.addSC 2 true) = consDrop) :=
  consumers_streaming_disjoint consDrop [ConsOp.addC 3 true, ConsOp.addSC 1 true] 2 2
    true true (by simp [consDrop, freshDrop])

/-- Claim C8: on a COMPLETED data node, open returns a fresh descriptor and
increments the reference count by one, any number of reads through that
descriptor leave the node unchanged, and closing the descriptor brings the
reference count back to its value before the open; open fails with the
invalid-state error when the status is not COMPLETED. -/
theorem open_read_close_refcount (s : Drop) (d : Int) (hd : d ∉ s.rios) :
    (s.status = DStatus.COMPLETED →
      ∃ s1, openStep s d = Except.ok s1 ∧
        s1.refCount = s.refCount + 1 ∧
        readStep s1 d = Except.ok s1 ∧
        ∃ s2, closeStep s1 d = Except.ok s2 ∧ s2.refCount = s.refCount) ∧
    (s.status ≠ DStatus.COMPLETED → openStep s d = Except.error Err.invalidState) := by
  constructor
  · intro hc
    have hopen : openStep s d = Except.ok { s with
        rios := s.rios ++ [d]
        refCount := s.refCount + 1
        events := s.events ++ [Ev.openEv] } := by
      unfold openStep
      rw [if_neg (not_not_intro hc)]
    refine ⟨_, hopen, rfl, ?_, ?_⟩
    · have hcd : checkStateAndDescriptor { s with
          rios := s.rios ++ [d]
          refCount := s.refCount + 1
          events := s.events ++ [Ev.openEv] } d = none := by
        unfold checkStateAndDescriptor
        rw [if_neg (not_not_intro hc), if_pos (by simp)]
      unfold readStep
      rw [hcd]
    · have hcd : checkStateAndDescriptor { s with
          rios := s.rios ++ [d]
          refCount := s.refCount + 1
          events := s.events ++ [Ev.openEv] } d = none := by
        unfold checkStateAndDescriptor
        rw [if_neg (not_not_intro hc), if_pos (by simp)]
      refine ⟨{ s with
          rios := (s.rios ++ [d]).filter (fun x => x ≠ d)
          refCount := s.refCount + 1 - 1
          events := s.events ++ [Ev.openEv] }, ?_, ?_⟩
      · unfold closeStep
        rw [hcd]
      · simp
  · intro hnc
    unfold openStep
    rw [if_pos hnc]

/-- Witness for claim C8: opening, reading and closing descriptor 5 on a
COMPLETED DROP. -/
theorem open_read_close_refcount_w :
    (compDrop.status = DStatus.COMPLETED →
      ∃ s1, openStep compDrop 5 = Except.ok s1 ∧
        s1.refCount = compDrop.refCount + 1 ∧
        readStep s1 5 = Except.ok s1 ∧
        ∃ s2, closeStep s1 5 = Except.ok s2 ∧ s2.refCount = compDrop.refCount) ∧
    (compDrop.status ≠ DStatus.COMPLETED →
      openStep compDrop 5 = Except.error Err.invalidState) :=
  open_read_close_refcount compDrop 5 (by simp [compDrop, freshDrop])

end Dfms
